import Mathlib

/-!
Shallow embedding of `src/server.go` (package server of jchorl/jaysbot).

The program is a single HTTP handler `mlb_handler` that fetches today's MLB
scoreboard, extracts the Toronto game, compares its alert brief text against
the most recent alert stored in the datastore (kind "jays", ordered by
`-Updated`), and, when the brief text differs (or no alert is stored yet),
persists the new alert and posts a Slack notification whose color is derived
from the linescore and from whether Toronto is the home team.

The embedding models the handler from the point where the scoreboard JSON has
been parsed into a list of games.  External I/O (datastore read, datastore
write, the Slack POST) is driven by an oracle providing each call's outcome,
and the handler records the calls it makes, in order, in an event trace.
-/

/-- The `r` field of a linescore: home and away run counts
(`Linescore.Runs` in server.go, JSON-decoded from strings to ints). -/
structure Runs where
  home : Int
  away : Int
deriving Repr, DecidableEq

/-- `Linescore` in server.go. -/
structure Linescore where
  runs : Runs
deriving Repr, DecidableEq

/-- `Alert` in server.go: long display text, brief comparison text, and the
`Updated` timestamp (modelled as a `Nat`). -/
structure Alert where
  text : String
  briefText : String
  updated : Nat
deriving Repr, DecidableEq

/-- `Game` in server.go. -/
structure Game where
  homeTeamCity : String
  awayTeamCity : String
  alerts : Alert
  linescore : Linescore
deriving Repr, DecidableEq

/-- The datastore content for kind "jays": entities keyed by a `Nat` key.
The list order is representation order only; reads go through the
`-Updated` sort below, mirroring `datastore.NewQuery("jays").Order("-Updated")`. -/
abbrev Store := List (Nat × Alert)

/-- Outcome of the Slack POST issued by `send_to_slack` (server.go lines
82-99).  `client.Post` returns a non-nil error only on transport-level
failures (network failure, malformed destination URL); an HTTP response with
any status code, 2xx or not, comes back with a nil error. -/
inductive SendOutcome where
  | transportError
  | response (status : Nat)
deriving Repr, DecidableEq

/-- One external call made by the handler, in program order. -/
inductive Event where
  | storeRead (ok : Bool)
  | storeWrite (ok : Bool)
  | send (message : String) (color : String) (outcome : SendOutcome)
deriving Repr, DecidableEq

/-- The failure the handler reports via `http.Error` (a 500 status), by the
call that caused it. -/
inductive CycleError where
  | storeReadError
  | storeWriteError
  | deliveryError
deriving Repr, DecidableEq

/-- Oracle fixing the outcome of each external call of one handler cycle. -/
structure Oracle where
  readOk : Bool
  writeOk : Bool
  send : SendOutcome
deriving Repr, DecidableEq

/-- Result of one handler cycle: the datastore content afterwards, the trace
of external calls made, and the error reported to the HTTP caller (if any). -/
structure CycleResult where
  store : Store
  trace : List Event
  error : Option CycleError
deriving Repr, DecidableEq

/-- The loop at server.go lines 142-152: scan the games in order and return
the first whose home city is "Toronto" (with `areJaysHome = true`) or, that
failing for the game at hand, whose away city is "Toronto"
(with `areJaysHome = false`). -/
def findJaysGame : List Game → Option (Game × Bool)
  | [] => none
  | g :: gs =>
    if g.homeTeamCity = "Toronto" then some (g, true)
    else if g.awayTeamCity = "Toronto" then some (g, false)
    else findJaysGame gs

/-- Insert an entry into a list kept in descending `Updated` order. -/
def insertByUpdatedDesc (x : Nat × Alert) : Store → Store
  | [] => [x]
  | y :: ys =>
    if y.2.updated ≤ x.2.updated then x :: y :: ys
    else y :: insertByUpdatedDesc x ys

/-- The `Order("-Updated")` read of server.go line 156: the stored entities
sorted by `Updated` descending (insertion sort; ties are resolved
arbitrarily, as the datastore leaves them unspecified). -/
def sortByUpdatedDesc : Store → Store
  | [] => []
  | x :: xs => insertByUpdatedDesc x (sortByUpdatedDesc xs)

/-- `datastore.Put(c, keys[0], ...)` at server.go line 182: overwrite the
content of the entity with the given key, leaving every other entity alone. -/
def overwriteEntry (store : Store) (key : Nat) (a : Alert) : Store :=
  store.map fun e => if e.1 = key then (key, a) else e

/-- The color choice at server.go lines 192-206: start from gray and override
with green/red according to the run counts and which side Toronto is. -/
def pickColor (areJaysHome : Bool) (runs : Runs) : String :=
  if areJaysHome then
    if runs.home > runs.away then "#00cc00"
    else if runs.away > runs.home then "#e50000"
    else "#808080"
  else
    if runs.home > runs.away then "#e50000"
    else if runs.away > runs.home then "#00cc00"
    else "#808080"

/-- Server.go lines 207-212: attempt the Slack POST with the already-written
store.  Only a non-nil error from `client.Post` (a transport failure) is
reported via `http.Error`; the HTTP status of a received response is ignored. -/
def notifyPhase (store : Store) (message color : String) (o : Oracle) : CycleResult :=
  match o.send with
  | SendOutcome.transportError =>
    { store := store
      trace := [Event.storeRead true, Event.storeWrite true,
        Event.send message color SendOutcome.transportError]
      error := some CycleError.deliveryError }
  | SendOutcome.response status =>
    { store := store
      trace := [Event.storeRead true, Event.storeWrite true,
        Event.send message color (SendOutcome.response status)]
      error := none }

/-- One `datastore.Put` followed, on success, by the notification phase
(server.go lines 169-174 and 182-187): on write failure the handler reports
the error and returns with the store unchanged and nothing sent. -/
def writeThenNotify (oldStore newStore : Store) (message color : String)
    (o : Oracle) : CycleResult :=
  if o.writeOk then
    notifyPhase newStore message color o
  else
    { store := oldStore
      trace := [Event.storeRead true, Event.storeWrite false]
      error := some CycleError.storeWriteError }

/-- Server.go lines 165-213 after a successful store read: stamp the fresh
alert with the current time, decide against the most recent stored alert
(or the empty history), persist, and notify. -/
def detectPersistNotify (jaysGame : Game) (areJaysHome : Bool) (store : Store)
    (now nextKey : Nat) (o : Oracle) : CycleResult :=
  match sortByUpdatedDesc store with
  | [] =>
    writeThenNotify store ((nextKey, { jaysGame.alerts with updated := now }) :: store)
      jaysGame.alerts.briefText (pickColor areJaysHome jaysGame.linescore.runs) o
  | (k0, latest) :: _ =>
    if latest.briefText ≠ jaysGame.alerts.briefText then
      writeThenNotify store (overwriteEntry store k0 { jaysGame.alerts with updated := now })
        jaysGame.alerts.briefText (pickColor areJaysHome jaysGame.linescore.runs) o
    else
      { store := store, trace := [Event.storeRead true], error := none }

/-- Server.go lines 154-214 for a found game: the sorted store read, which
may fail (lines 156-163), then detection/persistence/notification. -/
def handleGame (jaysGame : Game) (areJaysHome : Bool) (store : Store)
    (now nextKey : Nat) (o : Oracle) : CycleResult :=
  if o.readOk then
    detectPersistNotify jaysGame areJaysHome store now nextKey o
  else
    { store := store
      trace := [Event.storeRead false]
      error := some CycleError.storeReadError }

/-- `mlb_handler` (server.go lines 101-215) from the point where the
scoreboard has been parsed: extract the Toronto game; if none is found the
handler falls through to the end with no datastore access, no notification
and a success status. -/
def mlb_handler (games : List Game) (store : Store) (now nextKey : Nat)
    (o : Oracle) : CycleResult :=
  match findJaysGame games with
  | none => { store := store, trace := [], error := none }
  | some (jaysGame, areJaysHome) =>
    handleGame jaysGame areJaysHome store now nextKey o

/-- The persistence step in isolation (the two `datastore.Put` call sites,
server.go lines 169 and 182): insert under a fresh key when nothing is
stored, otherwise overwrite the most recent entry's content in place. -/
def persistAlert (store : Store) (a : Alert) (nextKey : Nat) : Store :=
  match sortByUpdatedDesc store with
  | [] => (nextKey, a) :: store
  | (k0, _) :: _ => overwriteEntry store k0 a

/-- The "read latest" contract over the store: the head of the `-Updated`
ordered read (`alerts[0]` at server.go line 178), if any. -/
def latestAlert (store : Store) : Option Alert :=
  (sortByUpdatedDesc store).head?.map Prod.snd

/-- Whether the trace contains a notification attempt. -/
def sendAttempted (t : List Event) : Bool :=
  t.any fun e =>
    match e with
    | Event.send _ _ _ => true
    | _ => false

/-- Whether the trace contains a datastore write attempt (successful or not). -/
def wroteStore (t : List Event) : Bool :=
  t.any fun e =>
    match e with
    | Event.storeWrite _ => true
    | _ => false

/-- Whether the trace contains a successful datastore write. -/
def writeSucceeded (t : List Event) : Bool :=
  t.any fun e =>
    match e with
    | Event.storeWrite ok => ok
    | _ => false

/-- A game not involving Toronto, for concrete instantiations. -/
def gBoston : Game :=
  { homeTeamCity := "Boston", awayTeamCity := "Chicago"
    alerts := { text := "rain delay in Boston", briefText := "delay", updated := 0 }
    linescore := { runs := { home := 1, away := 2 } } }

/-- A home game of Toronto, for concrete instantiations. -/
def gToronto : Game :=
  { homeTeamCity := "Toronto", awayTeamCity := "Boston"
    alerts := { text := "Toronto wins the game", briefText := "Jays win", updated := 0 }
    linescore := { runs := { home := 5, away := 2 } } }

/-- A game where both cities are Toronto, for concrete instantiations. -/
def gBoth : Game :=
  { homeTeamCity := "Toronto", awayTeamCity := "Toronto"
    alerts := { text := "both sides Toronto", briefText := "odd", updated := 0 }
    linescore := { runs := { home := 2, away := 2 } } }

/-- Stored alert with brief text "A", for concrete instantiations. -/
def alertA : Alert := { text := "old text", briefText := "A", updated := 10 }

/-- Stored alert with brief text "B", for concrete instantiations. -/
def alertB : Alert := { text := "older text", briefText := "B", updated := 5 }

/-- A fresh alert with brief text "C" carrying a stale timestamp. -/
def alertC : Alert := { text := "new text", briefText := "C", updated := 3 }

/-- Oracle where every external call succeeds (the Slack POST gets a 200). -/
def oracleOk : Oracle := { readOk := true, writeOk := true, send := SendOutcome.response 200 }

/-! ### Helper lemmas about the sorted read -/

theorem insertByUpdatedDesc_length (x : Nat × Alert) (l : Store) :
    (insertByUpdatedDesc x l).length = l.length + 1 := by
  induction l with
  | nil => rfl
  | cons y ys ih =>
    simp only [insertByUpdatedDesc]
    split
    · rfl
    · simp [ih]

theorem sortByUpdatedDesc_length (l : Store) :
    (sortByUpdatedDesc l).length = l.length := by
  induction l with
  | nil => rfl
  | cons x xs ih => simp [sortByUpdatedDesc, insertByUpdatedDesc_length, ih]

theorem sortByUpdatedDesc_eq_nil_iff {l : Store} :
    sortByUpdatedDesc l = [] ↔ l = [] := by
  constructor
  · intro h
    have := sortByUpdatedDesc_length l
    rw [h] at this
    exact List.length_eq_zero.mp this.symm
  · intro h
    rw [h]
    rfl

theorem mem_insertByUpdatedDesc {z x : Nat × Alert} {l : Store} :
    z ∈ insertByUpdatedDesc x l ↔ z = x ∨ z ∈ l := by
  induction l with
  | nil => simp [insertByUpdatedDesc]
  | cons y ys ih =>
    simp only [insertByUpdatedDesc]
    split
    · simp
    · simp only [List.mem_cons, ih]
      tauto

theorem mem_sortByUpdatedDesc {z : Nat × Alert} {l : Store} :
    z ∈ sortByUpdatedDesc l ↔ z ∈ l := by
  induction l with
  | nil => simp [sortByUpdatedDesc]
  | cons x xs ih => simp [sortByUpdatedDesc, mem_insertByUpdatedDesc, ih]

theorem sortByUpdatedDesc_head_max {l : Store} {m : Nat × Alert} {r : Store}
    (h : sortByUpdatedDesc l = m :: r) :
    m ∈ l ∧ ∀ y ∈ l, y.2.updated ≤ m.2.updated := by
  induction l generalizing m r with
  | nil => simp [sortByUpdatedDesc] at h
  | cons a as ih =>
    simp only [sortByUpdatedDesc] at h
    cases hs : sortByUpdatedDesc as with
    | nil =>
      rw [hs] at h
      simp only [insertByUpdatedDesc] at h
      cases h
      refine ⟨List.mem_cons_self _ _, ?_⟩
      intro y hy
      rcases List.mem_cons.mp hy with h' | h'
      · rw [h']
      · exfalso
        have : y ∈ sortByUpdatedDesc as := mem_sortByUpdatedDesc.mpr h'
        rw [hs] at this
        exact absurd this (List.not_mem_nil y)
    | cons b bs =>
      rw [hs] at h
      obtain ⟨hbmem, hbmax⟩ := ih hs
      simp only [insertByUpdatedDesc] at h
      split at h
      · rename_i hba
        cases h
        refine ⟨List.mem_cons_self _ _, ?_⟩
        intro y hy
        rcases List.mem_cons.mp hy with h' | h'
        · rw [h']
        · exact le_trans (hbmax y h') hba
      · rename_i hba
        cases h
        refine ⟨List.mem_cons_of_mem _ hbmem, ?_⟩
        intro y hy
        rcases List.mem_cons.mp hy with h' | h'
        · rw [h']
          exact le_of_lt (Nat.lt_of_not_le hba)
        · exact hbmax y h'

/-! ### Helper lemmas about the extractor -/

theorem findJaysGame_eq_none_iff {games : List Game} :
    findJaysGame games = none
      ↔ ∀ g ∈ games, g.homeTeamCity ≠ "Toronto" ∧ g.awayTeamCity ≠ "Toronto" := by
  induction games with
  | nil => simp [findJaysGame]
  | cons g gs ih =>
    simp only [findJaysGame]
    by_cases h1 : g.homeTeamCity = "Toronto"
    · simp [h1]
    · by_cases h2 : g.awayTeamCity = "Toronto"
      · simp [h1, h2]
      · simp only [h1, h2, if_false, ih]
        constructor
        · intro h g' hg'
          rcases List.mem_cons.mp hg' with h' | h'
          · rw [h']
            exact ⟨h1, h2⟩
          · exact h g' h'
        · intro h g' hg'
          exact h g' (List.mem_cons_of_mem _ hg')

theorem findJaysGame_characterization :
    ∀ (games : List Game) (g : Game) (r : Bool),
      findJaysGame games = some (g, r) →
        ∃ gpre gpost, games = gpre ++ g :: gpost
          ∧ (∀ g' ∈ gpre, g'.homeTeamCity ≠ "Toronto" ∧ g'.awayTeamCity ≠ "Toronto")
          ∧ ((g.homeTeamCity = "Toronto" ∧ r = true)
              ∨ (g.homeTeamCity ≠ "Toronto" ∧ g.awayTeamCity = "Toronto" ∧ r = false)) := by
  intro games
  induction games with
  | nil => intro g r h; simp [findJaysGame] at h
  | cons a as ih =>
    intro g r h
    simp only [findJaysGame] at h
    by_cases h1 : a.homeTeamCity = "Toronto"
    · rw [if_pos h1] at h
      cases h
      exact ⟨[], as, rfl, by simp, Or.inl ⟨h1, rfl⟩⟩
    · rw [if_neg h1] at h
      by_cases h2 : a.awayTeamCity = "Toronto"
      · rw [if_pos h2] at h
        cases h
        exact ⟨[], as, rfl, by simp, Or.inr ⟨h1, h2, rfl⟩⟩
      · rw [if_neg h2] at h
        obtain ⟨gpre, gpost, heq, hpre, hcase⟩ := ih g r h
        refine ⟨a :: gpre, gpost, by simp [heq], ?_, hcase⟩
        intro g' hg'
        rcases List.mem_cons.mp hg' with h' | h'
        · rw [h']
          exact ⟨h1, h2⟩
        · exact hpre g' h'

/-! ### Helper lemmas about the handler -/

theorem mlb_handler_send_cases (games : List Game) (store : Store) (now nextKey : Nat)
    (o : Oracle) :
    (∃ ns msg col, o.readOk = true ∧ o.writeOk = true
      ∧ mlb_handler games store now nextKey o = notifyPhase ns msg col o
      ∧ ∀ s, mlb_handler games store now nextKey { o with send := s }
          = notifyPhase ns msg col { o with send := s })
    ∨ (sendAttempted (mlb_handler games store now nextKey o).trace = false
        ∧ (mlb_handler games store now nextKey o).store = store
        ∧ (mlb_handler games store now nextKey o).error ≠ some CycleError.deliveryError
        ∧ ∀ s, mlb_handler games store now nextKey { o with send := s }
            = mlb_handler games store now nextKey o) := by
  cases hf : findJaysGame games with
  | none =>
    right
    simp [mlb_handler, hf, sendAttempted]
  | some p =>
    obtain ⟨g, r⟩ := p
    cases hr : o.readOk with
    | false =>
      right
      simp [mlb_handler, hf, handleGame, hr, sendAttempted]
    | true =>
      cases hs : sortByUpdatedDesc store with
      | nil =>
        cases hw : o.writeOk with
        | false =>
          right
          simp [mlb_handler, hf, handleGame, hr, detectPersistNotify, hs,
            writeThenNotify, hw, sendAttempted]
        | true =>
          left
          refine ⟨(nextKey, { g.alerts with updated := now }) :: store,
            g.alerts.briefText, pickColor r g.linescore.runs, rfl, rfl, ?_, ?_⟩
          · simp [mlb_handler, hf, handleGame, hr, detectPersistNotify, hs,
              writeThenNotify, hw]
          · intro s
            simp [mlb_handler, hf, handleGame, hr, detectPersistNotify, hs,
              writeThenNotify, hw]
      | cons e rest =>
        obtain ⟨k0, a0⟩ := e
        by_cases hb : a0.briefText = g.alerts.briefText
        · right
          simp [mlb_handler, hf, handleGame, hr, detectPersistNotify, hs, hb,
            sendAttempted]
        · cases hw : o.writeOk with
          | false =>
            right
            simp [mlb_handler, hf, handleGame, hr, detectPersistNotify, hs, hb,
              writeThenNotify, hw, sendAttempted]
          | true =>
            left
            refine ⟨overwriteEntry store k0 { g.alerts with updated := now },
              g.alerts.briefText, pickColor r g.linescore.runs, rfl, rfl, ?_, ?_⟩
            · simp [mlb_handler, hf, handleGame, hr, detectPersistNotify, hs, hb,
                writeThenNotify, hw]
            · intro s
              simp [mlb_handler, hf, handleGame, hr, detectPersistNotify, hs, hb,
                writeThenNotify, hw]

theorem mlb_handler_store_cases (games : List Game) (store : Store) (now nextKey : Nat)
    (o : Oracle) :
    (mlb_handler games store now nextKey o).store = store
    ∨ (∃ k a, (mlb_handler games store now nextKey o).store = overwriteEntry store k a)
    ∨ (∃ k a, (mlb_handler games store now nextKey o).store = (k, a) :: store) := by
  cases hf : findJaysGame games with
  | none =>
    left
    simp [mlb_handler, hf]
  | some p =>
    obtain ⟨g, r⟩ := p
    cases hr : o.readOk with
    | false =>
      left
      simp [mlb_handler, hf, handleGame, hr]
    | true =>
      cases hs : sortByUpdatedDesc store with
      | nil =>
        cases hw : o.writeOk with
        | false =>
          left
          simp [mlb_handler, hf, handleGame, hr, detectPersistNotify, hs,
            writeThenNotify, hw]
        | true =>
          right; right
          refine ⟨nextKey, { g.alerts with updated := now }, ?_⟩
          cases hsend : o.send <;>
            simp [mlb_handler, hf, handleGame, hr, detectPersistNotify, hs,
              writeThenNotify, hw, notifyPhase, hsend]
      | cons e rest =>
        obtain ⟨k0, a0⟩ := e
        by_cases hb : a0.briefText = g.alerts.briefText
        · left
          simp [mlb_handler, hf, handleGame, hr, detectPersistNotify, hs, hb]
        · cases hw : o.writeOk with
          | false =>
            left
            simp [mlb_handler, hf, handleGame, hr, detectPersistNotify, hs, hb,
              writeThenNotify, hw]
          | true =>
            right; left
            refine ⟨k0, { g.alerts with updated := now }, ?_⟩
            cases hsend : o.send <;>
              simp [mlb_handler, hf, handleGame, hr, detectPersistNotify, hs, hb,
                writeThenNotify, hw, notifyPhase, hsend]

/-! ### Claim theorems -/

/-- Claim C5: for every payload in which no candidate record's home or away
city equals "Toronto", the cycle is a successful no-op: the store is
unchanged, no external call at all is made (so no store read or write and no
notification), and no error is reported. -/
theorem C5_no_match_noop (games : List Game) (store : Store) (now nextKey : Nat)
    (o : Oracle)
    (hnomatch : ∀ g ∈ games, g.homeTeamCity ≠ "Toronto" ∧ g.awayTeamCity ≠ "Toronto") :
    mlb_handler games store now nextKey o = { store := store, trace := [], error := none } := by
  simp [mlb_handler, findJaysGame_eq_none_iff.mpr hnomatch]

theorem C5_no_match_noop_witness :
    (∀ g ∈ [gBoston], g.homeTeamCity ≠ "Toronto" ∧ g.awayTeamCity ≠ "Toronto")
    ∧ mlb_handler [gBoston] [(0, alertA)] 7 1 oracleOk
        = { store := [(0, alertA)], trace := [], error := none } :=
  ⟨by decide, C5_no_match_noop [gBoston] [(0, alertA)] 7 1 oracleOk (by decide)⟩

/-- Claim C10: the extractor returns the first game whose home or away city
equals "Toronto", testing the home field before the away field within each
game; in particular a game carrying "Toronto" in both fields is matched with
the home (`areJaysHome = true`) role, and a payload containing any matching
game never extracts nothing. -/
theorem C10_extractor_first_match (games : List Game) :
    (∀ g r, findJaysGame games = some (g, r) →
      ∃ gpre gpost, games = gpre ++ g :: gpost
        ∧ (∀ g' ∈ gpre, g'.homeTeamCity ≠ "Toronto" ∧ g'.awayTeamCity ≠ "Toronto")
        ∧ ((g.homeTeamCity = "Toronto" ∧ r = true)
            ∨ (g.homeTeamCity ≠ "Toronto" ∧ g.awayTeamCity = "Toronto" ∧ r = false)))
    ∧ (∀ g r, findJaysGame games = some (g, r) → g.homeTeamCity = "Toronto" → r = true)
    ∧ (∀ g ∈ games, (g.homeTeamCity = "Toronto" ∨ g.awayTeamCity = "Toronto") →
        findJaysGame games ≠ none) := by
  refine ⟨findJaysGame_characterization games, ?_, ?_⟩
  · intro g r h hhome
    obtain ⟨_, _, _, _, hcase⟩ := findJaysGame_characterization games g r h
    rcases hcase with ⟨_, hr⟩ | ⟨hne, _, _⟩
    · exact hr
    · exact absurd hhome hne
  · intro g hg hmatch hnone
    have := findJaysGame_eq_none_iff.mp hnone g hg
    rcases hmatch with h | h
    · exact this.1 h
    · exact this.2 h

theorem C10_extractor_first_match_witness :
    ∃ gpre gpost, [gBoston, gBoth] = gpre ++ gBoth :: gpost
      ∧ (∀ g' ∈ gpre, g'.homeTeamCity ≠ "Toronto" ∧ g'.awayTeamCity ≠ "Toronto")
      ∧ ((gBoth.homeTeamCity = "Toronto" ∧ true = true)
          ∨ (gBoth.homeTeamCity ≠ "Toronto" ∧ gBoth.awayTeamCity = "Toronto"
              ∧ true = false)) :=
  (C10_extractor_first_match [gBoston, gBoth]).1 gBoth true (by decide)

/-- Claim C4: the notification color is gray when the run counts are equal;
with Toronto at home, more home runs than away runs gives green and more away
runs gives red; with Toronto away, more away runs gives green and more home
runs gives red. -/
theorem C4_color_derivation (areJaysHome : Bool) (runs : Runs) :
    (runs.home = runs.away → pickColor areJaysHome runs = "#808080")
    ∧ (runs.home > runs.away → pickColor true runs = "#00cc00")
    ∧ (runs.away > runs.home → pickColor true runs = "#e50000")
    ∧ (runs.away > runs.home → pickColor false runs = "#00cc00")
    ∧ (runs.home > runs.away → pickColor false runs = "#e50000") := by
  refine ⟨?_, ?_, ?_, ?_, ?_⟩ <;> intro h
  · cases areJaysHome <;> simp [pickColor, h]
  · simp [pickColor, h]
  · have h' : ¬ runs.home > runs.away := not_lt.mpr (le_of_lt h)
    simp [pickColor, h, h']
  · have h' : ¬ runs.home > runs.away := not_lt.mpr (le_of_lt h)
    simp [pickColor, h, h']
  · simp [pickColor, h]

theorem C4_color_derivation_witness :
    ((3 : Int) > 1 ∧ pickColor true { home := 3, away := 1 } = "#00cc00")
    ∧ ((3 : Int) > 1 ∧ pickColor false { home := 1, away := 3 } = "#00cc00")
    ∧ ((2 : Int) = 2 ∧ pickColor false { home := 2, away := 2 } = "#808080") :=
  ⟨⟨by decide, (C4_color_derivation true { home := 3, away := 1 }).2.1 (by decide)⟩,
   ⟨by decide, (C4_color_derivation false { home := 1, away := 3 }).2.2.2.1 (by decide)⟩,
   ⟨rfl, (C4_color_derivation false { home := 2, away := 2 }).1 rfl⟩⟩

/-- Claim C6: when a game was extracted and the store read fails, the cycle
aborts reporting a store error, with the store untouched and with neither a
write nor a notification attempted. -/
theorem C6_read_failure_aborts (games : List Game) (store : Store) (now nextKey : Nat)
    (o : Oracle) (g : Game) (r : Bool)
    (hfind : findJaysGame games = some (g, r)) (hread : o.readOk = false) :
    mlb_handler games store now nextKey o
        = { store := store, trace := [Event.storeRead false]
            error := some CycleError.storeReadError }
    ∧ wroteStore (mlb_handler games store now nextKey o).trace = false
    ∧ sendAttempted (mlb_handler games store now nextKey o).trace = false := by
  refine ⟨?_, ?_, ?_⟩ <;>
    simp [mlb_handler, hfind, handleGame, hread, wroteStore, sendAttempted]

theorem C6_read_failure_aborts_witness :
    findJaysGame [gToronto] = some (gToronto, true)
    ∧ mlb_handler [gToronto] [(0, alertA)] 7 1
          { readOk := false, writeOk := true, send := SendOutcome.response 200 }
        = { store := [(0, alertA)], trace := [Event.storeRead false]
            error := some CycleError.storeReadError } :=
  ⟨by decide,
   (C6_read_failure_aborts [gToronto] [(0, alertA)] 7 1
      { readOk := false, writeOk := true, send := SendOutcome.response 200 }
      gToronto true (by decide) rfl).1⟩

/-- Claim C3: with an empty observation history and an extracted game, the
detector decides to notify and the fresh alert is inserted as a brand-new
entry under a fresh key (no existing slot is overwritten, the store being
empty), after which the notification is attempted. -/
theorem C3_empty_history_insert (games : List Game) (now nextKey : Nat) (o : Oracle)
    (g : Game) (r : Bool)
    (hfind : findJaysGame games = some (g, r)) (hread : o.readOk = true)
    (hwrite : o.writeOk = true) :
    (mlb_handler games [] now nextKey o).store
        = [(nextKey, { g.alerts with updated := now })]
    ∧ writeSucceeded (mlb_handler games [] now nextKey o).trace = true
    ∧ sendAttempted (mlb_handler games [] now nextKey o).trace = true := by
  cases hsend : o.send <;>
    simp [mlb_handler, hfind, handleGame, hread, detectPersistNotify, sortByUpdatedDesc,
      writeThenNotify, hwrite, notifyPhase, hsend, writeSucceeded, sendAttempted]

theorem C3_empty_history_insert_witness :
    findJaysGame [gToronto] = some (gToronto, true)
    ∧ (mlb_handler [gToronto] [] 7 0 oracleOk).store
        = [(0, { gToronto.alerts with updated := 7 })]
    ∧ sendAttempted (mlb_handler [gToronto] [] 7 0 oracleOk).trace = true :=
  ⟨by decide,
   (C3_empty_history_insert [gToronto] 7 0 oracleOk gToronto true (by decide) rfl rfl).1,
   (C3_empty_history_insert [gToronto] 7 0 oracleOk gToronto true (by decide) rfl rfl).2.2⟩

/-- Claim C1: against a non-empty history the handler writes (and, when the
write succeeds, notifies) exactly when the fresh alert's brief text differs
from the brief text of the most recent stored entry; when the brief texts are
equal — whatever the timestamps and long display texts — the cycle performs
no write and no notification and leaves the store unchanged. -/
theorem C1_notify_iff_brief_differs (games : List Game) (store : Store)
    (now nextKey : Nat) (o : Oracle) (g : Game) (r : Bool) (k0 : Nat) (a0 : Alert)
    (rest : Store)
    (hfind : findJaysGame games = some (g, r)) (hread : o.readOk = true)
    (hsorted : sortByUpdatedDesc store = (k0, a0) :: rest) :
    (wroteStore (mlb_handler games store now nextKey o).trace = true
        ↔ g.alerts.briefText ≠ a0.briefText)
    ∧ (o.writeOk = true →
        (sendAttempted (mlb_handler games store now nextKey o).trace = true
          ↔ g.alerts.briefText ≠ a0.briefText))
    ∧ (g.alerts.briefText = a0.briefText →
        (mlb_handler games store now nextKey o).store = store
        ∧ (mlb_handler games store now nextKey o).trace = [Event.storeRead true]) := by
  by_cases hb : a0.briefText = g.alerts.briefText
  · simp [mlb_handler, hfind, handleGame, hread, detectPersistNotify, hsorted, hb,
      wroteStore, sendAttempted]
  · have hb' : ¬ g.alerts.briefText = a0.briefText := fun he => hb he.symm
    cases hw : o.writeOk with
    | false =>
      simp [mlb_handler, hfind, handleGame, hread, detectPersistNotify, hsorted, hb, hb',
        writeThenNotify, hw, wroteStore, sendAttempted]
    | true =>
      cases hsend : o.send <;>
        simp [mlb_handler, hfind, handleGame, hread, detectPersistNotify, hsorted, hb, hb',
          writeThenNotify, hw, notifyPhase, hsend, wroteStore, sendAttempted]

theorem C1_notify_iff_brief_differs_witness :
    (wroteStore (mlb_handler [gToronto] [(0, alertA)] 7 1 oracleOk).trace = true
      ↔ gToronto.alerts.briefText ≠ alertA.briefText)
    ∧ (gToronto.alerts.briefText = alertA.briefText → False) :=
  ⟨(C1_notify_iff_brief_differs [gToronto] [(0, alertA)] 7 1 oracleOk gToronto true
      0 alertA [] (by decide) rfl (by decide)).1,
   by decide⟩

/-- Claim C2: a notification is attempted only after the datastore write has
succeeded (the trace of any cycle that attempts a send is exactly a
successful read, then a successful write, then the send); if the write fails
no send is attempted; and the outcome of the send never changes the resulting
store (a delivery failure does not revert the persisted alert). -/
theorem C2_write_before_notify (games : List Game) (store : Store) (now nextKey : Nat)
    (o : Oracle) :
    (sendAttempted (mlb_handler games store now nextKey o).trace = true →
      ∃ msg col, (mlb_handler games store now nextKey o).trace
        = [Event.storeRead true, Event.storeWrite true, Event.send msg col o.send])
    ∧ (o.writeOk = false →
        sendAttempted (mlb_handler games store now nextKey o).trace = false)
    ∧ (∀ s1 s2, (mlb_handler games store now nextKey { o with send := s1 }).store
        = (mlb_handler games store now nextKey { o with send := s2 }).store) := by
  rcases mlb_handler_send_cases games store now nextKey o with
    ⟨ns, msg, col, hr, hw, heq, hall⟩ | ⟨hsend, _, _, hall⟩
  · refine ⟨?_, ?_, ?_⟩
    · intro _
      refine ⟨msg, col, ?_⟩
      rw [heq]
      cases hos : o.send <;> simp [notifyPhase, hos]
    · intro hwf
      rw [hwf] at hw
      cases hw
    · intro s1 s2
      rw [hall s1, hall s2]
      cases s1 <;> cases s2 <;> simp [notifyPhase]
  · refine ⟨?_, ?_, ?_⟩
    · intro hsa
      rw [hsa] at hsend
      cases hsend
    · intro _
      exact hsend
    · intro s1 s2
      rw [hall s1, hall s2]

theorem C2_write_before_notify_witness :
    ∃ msg col, (mlb_handler [gToronto] [] 7 0 oracleOk).trace
      = [Event.storeRead true, Event.storeWrite true, Event.send msg col oracleOk.send] :=
  (C2_write_before_notify [gToronto] [] 7 0 oracleOk).1 (by decide)

/-- Claim C7 counterexample: a cycle whose Slack POST comes back with HTTP
status 500 (a delivery failure in the claim's sense) still ends with no
reported error — the handler only checks the transport error of
`client.Post` and ignores the response status. -/
theorem C7_non2xx_not_surfaced :
    sendAttempted (mlb_handler [gToronto] [] 7 0
        { readOk := true, writeOk := true, send := SendOutcome.response 500 }).trace = true
    ∧ (mlb_handler [gToronto] [] 7 0
        { readOk := true, writeOk := true, send := SendOutcome.response 500 }).error
      = none := by
  decide

/-- Claim C7 (amended): a cycle reports a delivery error exactly when it
attempted the Slack POST and the POST failed at the transport level (network
failure or malformed destination); a received HTTP response, whatever its
status code, is never surfaced as a failure. -/
theorem C7_delivery_error_surfaced (games : List Game) (store : Store)
    (now nextKey : Nat) (o : Oracle) :
    (mlb_handler games store now nextKey o).error = some CycleError.deliveryError
      ↔ sendAttempted (mlb_handler games store now nextKey o).trace = true
        ∧ o.send = SendOutcome.transportError := by
  rcases mlb_handler_send_cases games store now nextKey o with
    ⟨ns, msg, col, hr, hw, heq, _⟩ | ⟨hsend, _, herr, _⟩
  · rw [heq]
    cases hos : o.send <;> simp [notifyPhase, hos, sendAttempted]
  · constructor
    · intro h
      exact absurd h herr
    · intro h
      rw [h.1] at hsend
      cases hsend

/-- Claim C8: when a change is detected against a non-empty history, the new
alert overwrites the content of the single most recent entry under its
existing key: the overwritten slot was an entry of the store, the number of
entries is unchanged, every entry with a different key is untouched, and —
over all cycles whatsoever — no stored key is ever deleted. -/
theorem C8_overwrite_in_place (games : List Game) (store : Store) (now nextKey : Nat)
    (o : Oracle) (g : Game) (r : Bool) (k0 : Nat) (a0 : Alert) (rest : Store)
    (hfind : findJaysGame games = some (g, r)) (hread : o.readOk = true)
    (hwrite : o.writeOk = true)
    (hsorted : sortByUpdatedDesc store = (k0, a0) :: rest)
    (hdiff : g.alerts.briefText ≠ a0.briefText) :
    (mlb_handler games store now nextKey o).store
        = overwriteEntry store k0 { g.alerts with updated := now }
    ∧ (mlb_handler games store now nextKey o).store.length = store.length
    ∧ (k0, a0) ∈ store
    ∧ (∀ e ∈ store, e.1 ≠ k0 → e ∈ (mlb_handler games store now nextKey o).store)
    ∧ (k0, { g.alerts with updated := now }) ∈ (mlb_handler games store now nextKey o).store
    ∧ (∀ (games2 : List Game) (store2 : Store) (now2 nextKey2 : Nat) (o2 : Oracle),
        ∀ e ∈ store2, ∃ a, (e.1, a) ∈ (mlb_handler games2 store2 now2 nextKey2 o2).store) := by
  have hb : ¬ a0.briefText = g.alerts.briefText := fun he => hdiff he.symm
  have hstore : (mlb_handler games store now nextKey o).store
      = overwriteEntry store k0 { g.alerts with updated := now } := by
    cases hsend : o.send <;>
      simp [mlb_handler, hfind, handleGame, hread, detectPersistNotify, hsorted, hb,
        writeThenNotify, hwrite, notifyPhase, hsend]
  have hmem0 : (k0, a0) ∈ store := (sortByUpdatedDesc_head_max hsorted).1
  refine ⟨hstore, ?_, hmem0, ?_, ?_, ?_⟩
  · rw [hstore]
    simp [overwriteEntry]
  · intro e he hne
    rw [hstore]
    simp only [overwriteEntry]
    exact List.mem_map.mpr ⟨e, he, by simp [hne]⟩
  · rw [hstore]
    simp only [overwriteEntry]
    exact List.mem_map.mpr ⟨(k0, a0), hmem0, by simp⟩
  · intro games2 store2 now2 nextKey2 o2 e he
    rcases mlb_handler_store_cases games2 store2 now2 nextKey2 o2 with h | ⟨k, a, h⟩ | ⟨k, a, h⟩
    · exact ⟨e.2, by rw [h]; simpa using he⟩
    · by_cases hek : e.1 = k
      · refine ⟨a, ?_⟩
        rw [h]
        simp only [overwriteEntry]
        refine List.mem_map.mpr ⟨e, he, ?_⟩
        simp [hek]
      · refine ⟨e.2, ?_⟩
        rw [h]
        simp only [overwriteEntry]
        refine List.mem_map.mpr ⟨e, he, ?_⟩
        simp [hek]
    · exact ⟨e.2, by rw [h]; simp; right; simpa using he⟩

theorem C8_overwrite_in_place_witness :
    (mlb_handler [gToronto] [(0, alertA), (1, alertB)] 7 2 oracleOk).store
      = overwriteEntry [(0, alertA), (1, alertB)] 0 { gToronto.alerts with updated := 7 } :=
  (C8_overwrite_in_place [gToronto] [(0, alertA), (1, alertB)] 7 2 oracleOk gToronto true
    0 alertA [(1, alertB)] (by decide) rfl rfl (by decide) (by decide)).1

/-- Claim C9 counterexample: persisting an alert whose timestamp is older
than a retained entry's timestamp and then reading the latest entry returns
the retained entry, whose brief text differs from the persisted one —
`persistAlert` overwrites the most recent slot with a stale-stamped alert and
the `-Updated` ordered read then surfaces the other entry. -/
theorem C9_roundtrip_counterexample :
    (latestAlert (persistAlert [(0, alertA), (1, alertB)] alertC 2)).map Alert.briefText
      ≠ some alertC.briefText := by
  decide

/-- Claim C9 (amended): for every store state and every alert whose timestamp
is strictly greater than that of every stored entry — as holds in the handler,
which stamps the alert with the current time before persisting — persisting
the alert and then reading the latest entry yields an alert with the same
brief text. -/
theorem C9_roundtrip_fresh (store : Store) (a : Alert) (nextKey : Nat)
    (hfresh : ∀ e ∈ store, e.2.updated < a.updated) :
    (latestAlert (persistAlert store a nextKey)).map Alert.briefText
      = some a.briefText := by
  cases hs : sortByUpdatedDesc store with
  | nil =>
    have hempty : store = [] := sortByUpdatedDesc_eq_nil_iff.mp hs
    subst hempty
    simp [persistAlert, sortByUpdatedDesc, latestAlert, insertByUpdatedDesc]
  | cons e rest =>
    obtain ⟨k0, a0⟩ := e
    have hpersist : persistAlert store a nextKey = overwriteEntry store k0 a := by
      simp [persistAlert, hs]
    have hmem0 : (k0, a0) ∈ store := (sortByUpdatedDesc_head_max hs).1
    have hmem : (k0, a) ∈ overwriteEntry store k0 a := by
      simp only [overwriteEntry]
      exact List.mem_map.mpr ⟨(k0, a0), hmem0, by simp⟩
    have hne : store ≠ [] := by
      intro h
      rw [h] at hs
      simp [sortByUpdatedDesc] at hs
    cases hs2 : sortByUpdatedDesc (overwriteEntry store k0 a) with
    | nil =>
      exfalso
      have h0 : overwriteEntry store k0 a = [] := sortByUpdatedDesc_eq_nil_iff.mp hs2
      have : store.length = 0 := by
        have := congrArg List.length h0
        simpa [overwriteEntry] using this
      exact hne (List.length_eq_zero.mp this)
    | cons m mrest =>
      obtain ⟨hm_mem, hm_max⟩ := sortByUpdatedDesc_head_max hs2
      have hup : a.updated ≤ m.2.updated := hm_max (k0, a) hmem
      simp only [overwriteEntry] at hm_mem
      obtain ⟨x, hx, hxeq⟩ := List.mem_map.mp hm_mem
      by_cases hxk : x.1 = k0
      · rw [if_pos hxk] at hxeq
        rw [hpersist, latestAlert, hs2]
        simp [← hxeq]
      · rw [if_neg hxk] at hxeq
        exfalso
        have hlt : m.2.updated < a.updated := by
          rw [← hxeq]
          exact hfresh x hx
        omega

theorem C9_roundtrip_fresh_witness :
    (∀ e ∈ [(0, alertA), (1, alertB)],
        e.2.updated < (Alert.mk "new text" "D" 12).updated)
    ∧ (latestAlert (persistAlert [(0, alertA), (1, alertB)] (Alert.mk "new text" "D" 12) 2)).map
        Alert.briefText = some (Alert.mk "new text" "D" 12).briefText :=
  ⟨by decide,
   C9_roundtrip_fresh [(0, alertA), (1, alertB)] (Alert.mk "new text" "D" 12) 2 (by decide)⟩
